import Mathlib

/-!
Shallow embedding of `src/main.py` (ulauncher Google Tasks extension).

The program has two stateful components:

* `OAuth2TokenManager.get_credentials` — loads an OAuth token from
  `token.json`, refreshes or re-runs the OAuth flow as needed, and saves the
  refreshed/new token back to the file with mode `0o600`.
* `GoogleTasksExtension` — builds the Tasks service from the credentials and
  inserts tasks; `_sanitize_input` trims and truncates user text.

Python exceptions are modelled with an `Except`-carrying state monad `PyM`:
every statement that can raise is translated to a `PyM` action that may
return `Except.error`, and every `try/except` of the source is translated
with `pyTry`.  The behaviour of the external collaborators (the Google
libraries and the filesystem) is an explicit environment of `Except` values,
so theorems quantify over every behaviour, including raising, of each
collaborator call.  The run also records a trace of the observable calls, in
order, so that temporal claims (what was called before what) are statable.
-/

/-- A Python exception value (opaque: only its presence matters). -/
inductive PyExc where
  | err (msg : String)
deriving DecidableEq, Repr

/-- Observable events of a run: collaborator calls and filesystem effects.

`refreshCall` is `creds.refresh(Request())` (remote token endpoint),
`flowCall` is `flow.run_local_server(port=0)` (remote OAuth login),
`buildCall` is `build('tasks','v1',...)`, `listCall` is
`service.tasklists().list().execute()`, `insertCall` is
`service.tasks().insert(...).execute()`.  `fileWrite` records a successful
write of the token file with the written content, `chmodCall` a successful
`os.chmod` with the requested mode. -/
inductive Event where
  | refreshCall
  | flowCall
  | buildCall
  | listCall
  | insertCall
  | fileWrite (content : String)
  | chmodCall (mode : Nat)
deriving DecidableEq, Repr

/-- Model of a `google.oauth2.credentials.Credentials` object: the attributes
the source reads (`valid`, `expired`, truthiness of `refresh_token`) and the
serialization `to_json()` returns. -/
structure Creds where
  valid : Bool
  expired : Bool
  refreshTokenPresent : Bool
  jsonRepr : String
deriving DecidableEq, Repr

/-- Model of the opaque Tasks service object returned by `build` (always
truthy in Python; its behaviour lives in the environment). -/
structure Service where
  mk ::
deriving DecidableEq, Repr

/-- Mutable state of one run: the token file (content and permission bits),
the extension's cached `self.service`, and the event trace. -/
structure St where
  fileContent : Option String
  fileMode : Option Nat
  service : Option Service
  trace : List Event
deriving DecidableEq, Repr

/-- The Python-statement monad: state passing plus exceptions.  State changes
made before a raise survive it, as in Python. -/
def PyM (α : Type) := St → Except PyExc α × St

def PyM.pure {α : Type} (a : α) : PyM α := fun s => (Except.ok a, s)

def PyM.bind {α β : Type} (m : PyM α) (f : α → PyM β) : PyM β := fun s =>
  match m s with
  | (Except.ok a, s2) => f a s2
  | (Except.error e, s2) => (Except.error e, s2)

instance : Monad PyM where
  pure := PyM.pure
  bind := PyM.bind

/-- Translation of `try: m except Exception: h`. -/
def pyTry {α : Type} (m : PyM α) (h : PyExc → PyM α) : PyM α := fun s =>
  match m s with
  | (Except.ok a, s2) => (Except.ok a, s2)
  | (Except.error e, s2) => h e s2

/-- Run a collaborator call whose outcome the environment fixes: an
`Except.error` models the call raising. -/
def liftExc {α : Type} (x : Except PyExc α) : PyM α := fun s => (x, s)

/-- Record an observable event. -/
def emit (ev : Event) : PyM Unit := fun s =>
  (Except.ok (), { s with trace := s.trace ++ [ev] })

def getSt : PyM St := fun s => (Except.ok s, s)

def modifySt (f : St → St) : PyM Unit := fun s => (Except.ok (), f s)

/-- A collaborator call: the event is recorded (the call happened), then the
environment-fixed outcome is produced (possibly a raise). -/
def remoteOp {α : Type} (ev : Event) (r : Except PyExc α) : PyM α := do
  emit ev
  liftExc r

/-! ## Input sanitization (`GoogleTasksExtension._sanitize_input`) -/

/-- Whitespace as recognized by Python `str.strip()` (the Unicode whitespace
code points). -/
def pyIsSpace (c : Char) : Bool :=
  c.val = 32 || c.val = 9 || c.val = 10 || c.val = 13 || c.val = 11 ||
  c.val = 12 || (28 ≤ c.val && c.val ≤ 31) || c.val = 133 || c.val = 160 ||
  c.val = 5760 || (8192 ≤ c.val && c.val ≤ 8202) || c.val = 8232 ||
  c.val = 8233 || c.val = 8239 || c.val = 8287 || c.val = 12288

/-- Python `text.strip()`: drop the longest whitespace prefix and suffix. -/
def pyStrip (s : String) : String :=
  String.mk (((s.data.dropWhile pyIsSpace).reverse.dropWhile pyIsSpace).reverse)

/-- Python `text[:n]` for `n ≥ 0`. -/
def pySlice (s : String) (n : Nat) : String := String.mk (s.data.take n)

/-- `GoogleTasksExtension._sanitize_input` (src/main.py:98-101):

    if not text:
        return ""
    return text.strip()[:1000]

The argument is `Option String` so that Python `None` is representable; the
`not text` test is true exactly on `None` and the empty string. -/
def sanitizeInput (text : Option String) : String :=
  match text with
  | none => ""
  | some t => if t = "" then "" else pySlice (pyStrip t) 1000

/-! ## `OAuth2TokenManager.get_credentials` -/

/-- Environment of one `get_credentials` run: truthiness of the module flag
and of `credentials_path.exists()`, and the outcome of each collaborator
call.  `loadResult` is `Credentials.from_authorized_user_file` as a function
of the token-file content; `refreshResult` is `creds.refresh(Request())`
returning the refreshed object; `flowResult` is
`InstalledAppFlow...run_local_server`; `writeOk`/`chmodOk` say whether the
token-file write / `os.chmod` raises; `createMode` is the mode the OS gives a
newly created file (umask-dependent). -/
structure CredEnv where
  googleTasksAvailable : Bool
  credentialsPathExists : Bool
  loadResult : String → Except PyExc Creds
  refreshResult : Creds → Except PyExc Creds
  flowResult : Except PyExc Creds
  writeOk : Bool
  chmodOk : Bool
  createMode : Nat

/-- `open(self.token_file, 'w'); token.write(creds.to_json())`: on success
the file holds exactly the written content (a fresh file gets the default
creation mode); on failure the model leaves the file unchanged and raises. -/
def fsWrite (env : CredEnv) (content : String) : PyM Unit := fun s =>
  if env.writeOk then
    (Except.ok (),
      { s with fileContent := some content,
               fileMode := some (s.fileMode.getD env.createMode),
               trace := s.trace ++ [Event.fileWrite content] })
  else (Except.error (PyExc.err "write failed"), s)

/-- `os.chmod(self.token_file, mode)`. -/
def fsChmod (env : CredEnv) (mode : Nat) : PyM Unit := fun s =>
  if env.chmodOk then
    (Except.ok (),
      { s with fileMode := some mode, trace := s.trace ++ [Event.chmodCall mode] })
  else (Except.error (PyExc.err "chmod failed"), s)

/-- src/main.py:47-52 — load the existing token if the file exists; a raise
from `Credentials.from_authorized_user_file` is caught and leaves
`creds = None`. -/
def loadBlock (env : CredEnv) : PyM (Option Creds) := do
  let s ← getSt
  match s.fileContent with
  | none => pure none
  | some content =>
      pyTry
        (do let c ← liftExc (env.loadResult content); pure (some c))
        (fun _ => pure none)

/-- src/main.py:56-61 — `if creds and creds.expired and creds.refresh_token:`
refresh, setting `creds = None` when the refresh raises. -/
def refreshBlock (env : CredEnv) (creds0 : Option Creds) : PyM (Option Creds) :=
  match creds0 with
  | some c =>
      if c.expired && c.refreshTokenPresent then
        pyTry
          (do let c2 ← remoteOp Event.refreshCall (env.refreshResult c); pure (some c2))
          (fun _ => pure none)
      else pure (some c)
  | none => pure none

/-- src/main.py:72-78 — save the credentials: write `creds.to_json()` to the
token file, then `os.chmod(..., 0o600)` (0o600 = 384); any raise is caught
and only logged. -/
def saveBlock (env : CredEnv) (c : Creds) : PyM Unit :=
  pyTry (do fsWrite env c.jsonRepr; fsChmod env 384) (fun _ => pure ())

/-- Python truthiness of `creds and creds.valid` at src/main.py:55 (negated
there as `if not creds or not creds.valid`). -/
def credsOk (creds : Option Creds) : Bool :=
  match creds with
  | none => false
  | some c => c.valid

/-- src/main.py:63-70 — `if not creds:` run the OAuth flow
(`InstalledAppFlow...run_local_server`); on a raise the function returns
`None` (modelled by the `none` this block hands to its caller, which can
come only from a flow failure). -/
def flowBlock (env : CredEnv) (creds1 : Option Creds) : PyM (Option Creds) :=
  match creds1 with
  | none =>
      pyTry
        (do let c ← remoteOp Event.flowCall env.flowResult; pure (some c))
        (fun _ => pure none)
  | some c => pure (some c)

/-- `OAuth2TokenManager.get_credentials` (src/main.py:36-80), translated
statement by statement.  The `mkdir` of the constructor touches only the
storage directory, which this model does not track. -/
def getCredentials (env : CredEnv) : PyM (Option Creds) :=
  if !env.googleTasksAvailable then PyM.pure none
  else if !env.credentialsPathExists then PyM.pure none
  else do
    let creds0 ← loadBlock env
    if credsOk creds0 then pure creds0
    else do
      let creds1 ← refreshBlock env creds0
      let flowOut ← flowBlock env creds1
      match flowOut with
      | none => pure none
      | some c => do
          saveBlock env c
          pure (some c)

/-! ## `GoogleTasksExtension` operations -/

/-- Environment of the extension: the credential environment plus the
outcomes of `build`, `tasklists().list().execute()` (as the list of task-list
ids of `results.get('items', [])`), `tasks().insert(...).execute()`, and the
`tasklist_id` preference string. -/
structure TasksEnv where
  credEnv : CredEnv
  buildResult : Except PyExc Service
  listResult : Except PyExc (List String)
  insertResult : Except PyExc Unit
  tasklistIdPref : String

/-- `GoogleTasksExtension.get_tasks_service` (src/main.py:103-119): returns
the cached service if present, otherwise obtains credentials and builds the
service, caching it; a raise from `build` is caught and yields `None`. -/
def getTasksService (env : TasksEnv) : PyM (Option Service) :=
  if !env.credEnv.googleTasksAvailable then PyM.pure none
  else do
    let s ← getSt
    match s.service with
    | some sv => pure (some sv)
    | none => do
        let creds ← getCredentials env.credEnv
        match creds with
        | some _ =>
            pyTry
              (do
                let sv ← remoteOp Event.buildCall env.buildResult
                modifySt (fun st => { st with service := some sv })
                pure (some sv))
              (fun _ => pure none)
        | none => do
            let s2 ← getSt
            pure s2.service

/-- `GoogleTasksExtension.get_default_tasklist_id` (src/main.py:121-135):
lists the task lists and returns the first id; every raise is caught and
yields `None`. -/
def getDefaultTasklistId (env : TasksEnv) : PyM (Option String) := do
  let sv ← getTasksService env
  match sv with
  | none => pure none
  | some _ =>
      pyTry
        (do
          let ids ← remoteOp Event.listCall env.listResult
          match ids with
          | [] => pure none
          | id0 :: _ => pure (some id0))
        (fun _ => pure none)

/-- Python truthiness of the `tasklist_id` variable at src/main.py:152
(`None` and `""` are falsy). -/
def tidTruthy (tid : Option String) : Bool :=
  match tid with
  | none => false
  | some t => t ≠ ""

/-- `GoogleTasksExtension.add_task_to_google_tasks` (src/main.py:137-166),
translated statement by statement. -/
def addTaskToGoogleTasks (env : TasksEnv) (taskText : Option String) :
    PyM (Bool × String) := do
  let sv ← getTasksService env
  match sv with
  | none => pure (false, "Google Tasks service not available")
  | some _ => do
      let sanitized := sanitizeInput taskText
      if sanitized = "" then pure (false, "Invalid task text")
      else do
        let tid ←
          if env.tasklistIdPref = "" then getDefaultTasklistId env
          else pure (some env.tasklistIdPref)
        if !tidTruthy tid then pure (false, "No task list available")
        else
          pyTry
            (do
              let _ ← remoteOp Event.insertCall env.insertResult
              pure (true, "Task added successfully"))
            (fun _ => pure (false, "Failed to add task"))

/-! ## Absence of uncaught exceptions -/

/-- A `PyM` action raises no exception from any start state. -/
def NoRaise {α : Type} (m : PyM α) : Prop :=
  ∀ s, ∃ a s2, m s = (Except.ok a, s2)

/-! ## Concrete environments and states used to instantiate the theorems -/

/-- Fresh process state: no token file, no cached service. -/
def stEmpty : St :=
  { fileContent := none, fileMode := none, service := none, trace := [] }

/-- A valid, non-expired credentials object as produced by a successful OAuth
flow; its `to_json()` serialization is the plain string below. -/
def credsFresh : Creds :=
  { valid := true, expired := false, refreshTokenPresent := false,
    jsonRepr := "authorized-user-token-json" }

/-- A valid stored credentials object, as parsed back from the token file. -/
def credsStored : Creds :=
  { valid := true, expired := false, refreshTokenPresent := true,
    jsonRepr := "stored-token-json" }

/-- `Credentials.from_authorized_user_file` raising on any content. -/
def loadRaises : String → Except PyExc Creds :=
  fun _ => Except.error (PyExc.err "load raised")

/-- `creds.refresh` raising on any credentials. -/
def refreshRaises : Creds → Except PyExc Creds :=
  fun _ => Except.error (PyExc.err "refresh raised")

/-- Environment where the OAuth flow succeeds and the filesystem cooperates. -/
def envFlowOk : CredEnv :=
  { googleTasksAvailable := true, credentialsPathExists := true,
    loadResult := loadRaises, refreshResult := refreshRaises,
    flowResult := Except.ok credsFresh,
    writeOk := true, chmodOk := true, createMode := 420 }

/-- Environment where the remote service rejects the fresh-login attempt. -/
def envFlowErr : CredEnv :=
  { envFlowOk with flowResult := Except.error (PyExc.err "login rejected") }

/-- Environment where a stored token parses to valid credentials. -/
def envLoadOk : CredEnv :=
  { envFlowOk with loadResult := fun _ => Except.ok credsStored }

/-- Environment where the token-file write raises. -/
def envWriteFail : CredEnv :=
  { envFlowOk with writeOk := false }

/-- State holding a stored token file. -/
def stTok : St :=
  { fileContent := some "stored-token-json", fileMode := some 384,
    service := none, trace := [] }

/-- Extension environment where every collaborator call succeeds. -/
def tasksEnvOk : TasksEnv :=
  { credEnv := envFlowOk, buildResult := Except.ok Service.mk,
    listResult := Except.ok ["tasklist-1"], insertResult := Except.ok (),
    tasklistIdPref := "" }

/-- Extension environment where the task insertion raises. -/
def tasksEnvInsertErr : TasksEnv :=
  { tasksEnvOk with insertResult := Except.error (PyExc.err "insert raised") }

/-! ## Run lemmas for the monad combinators -/

theorem bind_run {α β : Type} {m : PyM α} {f : α → PyM β} {s : St} {a : α}
    {s1 : St} (h : m s = (Except.ok a, s1)) : (m >>= f) s = f a s1 := by
  show PyM.bind m f s = f a s1
  simp [PyM.bind, h]

theorem pure_run {α : Type} (a : α) (s : St) :
    (pure a : PyM α) s = (Except.ok a, s) := rfl

theorem getSt_run (s : St) : getSt s = (Except.ok s, s) := rfl

theorem pyTry_run_ok {α : Type} {m : PyM α} {h : PyExc → PyM α} {s : St}
    {a : α} {s1 : St} (hm : m s = (Except.ok a, s1)) :
    pyTry m h s = (Except.ok a, s1) := by
  simp [pyTry, hm]

theorem pyTry_run_err {α : Type} {m : PyM α} {h : PyExc → PyM α} {s : St}
    {e : PyExc} {s1 : St} (hm : m s = (Except.error e, s1)) :
    pyTry m h s = h e s1 := by
  simp [pyTry, hm]

/-! ## NoRaise machinery (for the exception-propagation claims) -/

theorem noRaise_pure {α : Type} (a : α) : NoRaise (pure a : PyM α) :=
  fun s => ⟨a, s, rfl⟩

theorem noRaise_bind {α β : Type} {m : PyM α} {f : α → PyM β}
    (hm : NoRaise m) (hf : ∀ a, NoRaise (f a)) : NoRaise (m >>= f) := by
  intro s
  obtain ⟨a, s1, h1⟩ := hm s
  obtain ⟨b, s2, h2⟩ := hf a s1
  exact ⟨b, s2, by rw [bind_run h1]; exact h2⟩

theorem noRaise_pyTry {α : Type} {m : PyM α} {h : PyExc → PyM α}
    (hh : ∀ e, NoRaise (h e)) : NoRaise (pyTry m h) := by
  intro s
  rcases hm : m s with ⟨r, s1⟩
  cases r with
  | ok a => exact ⟨a, s1, pyTry_run_ok hm⟩
  | error e =>
      obtain ⟨b, s2, h2⟩ := hh e s1
      exact ⟨b, s2, by rw [pyTry_run_err hm]; exact h2⟩

theorem noRaise_getSt : NoRaise getSt := fun s => ⟨s, s, rfl⟩

theorem noRaise_modifySt (f : St → St) : NoRaise (modifySt f) :=
  fun s => ⟨(), f s, rfl⟩

/-! ## Evaluation lemmas for the blocks of `get_credentials` -/

theorem loadBlock_no_file {env : CredEnv} {s : St} (h : s.fileContent = none) :
    loadBlock env s = (Except.ok none, s) := by
  unfold loadBlock
  rw [bind_run (getSt_run s), h]
  rfl

theorem loadBlock_parse_ok {env : CredEnv} {s : St} {content : String}
    {c : Creds} (h1 : s.fileContent = some content)
    (h2 : env.loadResult content = Except.ok c) :
    loadBlock env s = (Except.ok (some c), s) := by
  unfold loadBlock
  rw [bind_run (getSt_run s), h1]
  exact pyTry_run_ok (by rw [bind_run (show liftExc (env.loadResult content) s = (Except.ok c, s) by simp [liftExc, h2])]; rfl)

theorem loadBlock_parse_err {env : CredEnv} {s : St} {content : String}
    {e : PyExc} (h1 : s.fileContent = some content)
    (h2 : env.loadResult content = Except.error e) :
    loadBlock env s = (Except.ok none, s) := by
  unfold loadBlock
  rw [bind_run (getSt_run s), h1]
  have hbody :
      (do let c ← liftExc (env.loadResult content)
          pure (some c) : PyM (Option Creds)) s = (Except.error e, s) := by
    show PyM.bind (liftExc (env.loadResult content)) _ s = _
    simp [PyM.bind, liftExc, h2]
  exact (pyTry_run_err hbody).trans rfl

theorem refreshBlock_none (env : CredEnv) (s : St) :
    refreshBlock env none s = (Except.ok none, s) := rfl

theorem remoteOp_run {α : Type} (ev : Event) (r : Except PyExc α) (s : St) :
    remoteOp ev r s = (r, { s with trace := s.trace ++ [ev] }) := rfl

theorem refreshBlock_keep {env : CredEnv} {s : St} {c : Creds}
    (h : (c.expired && c.refreshTokenPresent) = false) :
    refreshBlock env (some c) s = (Except.ok (some c), s) := by
  simp only [refreshBlock]
  rw [if_neg (by simp [h])]
  rfl

theorem refreshBlock_refresh_ok {env : CredEnv} {s : St} {c c2 : Creds}
    (h : (c.expired && c.refreshTokenPresent) = true)
    (h2 : env.refreshResult c = Except.ok c2) :
    refreshBlock env (some c) s =
      (Except.ok (some c2), { s with trace := s.trace ++ [Event.refreshCall] }) := by
  simp only [refreshBlock]
  rw [if_pos h]
  exact pyTry_run_ok (by
    rw [bind_run ((remoteOp_run Event.refreshCall (env.refreshResult c) s).trans (by rw [h2]))]
    rfl)

theorem refreshBlock_refresh_err {env : CredEnv} {s : St} {c : Creds}
    {e : PyExc} (h : (c.expired && c.refreshTokenPresent) = true)
    (h2 : env.refreshResult c = Except.error e) :
    refreshBlock env (some c) s =
      (Except.ok none, { s with trace := s.trace ++ [Event.refreshCall] }) := by
  simp only [refreshBlock]
  rw [if_pos h]
  have hbody :
      (do let c2 ← remoteOp Event.refreshCall (env.refreshResult c)
          pure (some c2) : PyM (Option Creds)) s =
        (Except.error e, { s with trace := s.trace ++ [Event.refreshCall] }) := by
    show PyM.bind (remoteOp Event.refreshCall (env.refreshResult c)) _ s = _
    rw [PyM.bind, remoteOp_run, h2]
  exact (pyTry_run_err hbody).trans rfl

theorem fsWrite_ok {env : CredEnv} {s : St} (content : String)
    (h : env.writeOk = true) :
    fsWrite env content s =
      (Except.ok (),
        { s with fileContent := some content,
                 fileMode := some (s.fileMode.getD env.createMode),
                 trace := s.trace ++ [Event.fileWrite content] }) := by
  simp [fsWrite, h]

theorem fsChmod_ok {env : CredEnv} {s : St} (mode : Nat)
    (h : env.chmodOk = true) :
    fsChmod env mode s =
      (Except.ok (),
        { s with fileMode := some mode,
                 trace := s.trace ++ [Event.chmodCall mode] }) := by
  simp [fsChmod, h]

theorem saveBlock_full {env : CredEnv} {s : St} {c : Creds}
    (hw : env.writeOk = true) (hc : env.chmodOk = true) :
    saveBlock env c s =
      (Except.ok (),
        { s with fileContent := some c.jsonRepr,
                 fileMode := some 384,
                 trace := s.trace ++
                   [Event.fileWrite c.jsonRepr, Event.chmodCall 384] }) := by
  unfold saveBlock
  exact pyTry_run_ok (by
    rw [bind_run (fsWrite_ok c.jsonRepr hw), fsChmod_ok 384 hc]
    simp)

theorem saveBlock_write_fails {env : CredEnv} {s : St} {c : Creds}
    (hw : env.writeOk = false) :
    saveBlock env c s = (Except.ok (), s) := by
  unfold saveBlock
  have hbody : (do fsWrite env c.jsonRepr; fsChmod env 384 : PyM Unit) s =
      (Except.error (PyExc.err "write failed"), s) := by
    show PyM.bind (fsWrite env c.jsonRepr) _ s = _
    rw [PyM.bind]
    simp [fsWrite, hw]
  exact (pyTry_run_err hbody).trans rfl

theorem saveBlock_chmod_fails {env : CredEnv} {s : St} {c : Creds}
    (hw : env.writeOk = true) (hc : env.chmodOk = false) :
    saveBlock env c s =
      (Except.ok (),
        { s with fileContent := some c.jsonRepr,
                 fileMode := some (s.fileMode.getD env.createMode),
                 trace := s.trace ++ [Event.fileWrite c.jsonRepr] }) := by
  unfold saveBlock
  have hbody : (do fsWrite env c.jsonRepr; fsChmod env 384 : PyM Unit) s =
      (Except.error (PyExc.err "chmod failed"),
        { s with fileContent := some c.jsonRepr,
                 fileMode := some (s.fileMode.getD env.createMode),
                 trace := s.trace ++ [Event.fileWrite c.jsonRepr] }) := by
    show PyM.bind (fsWrite env c.jsonRepr) _ s = _
    rw [PyM.bind]
    simp [fsWrite, fsChmod, hw, hc]
  exact (pyTry_run_err hbody).trans rfl

theorem flowBlock_some (env : CredEnv) (c : Creds) (s : St) :
    flowBlock env (some c) s = (Except.ok (some c), s) := rfl

theorem flowBlock_flow_ok {env : CredEnv} {s : St} {c : Creds}
    (h : env.flowResult = Except.ok c) :
    flowBlock env none s =
      (Except.ok (some c), { s with trace := s.trace ++ [Event.flowCall] }) := by
  simp only [flowBlock]
  exact pyTry_run_ok (by
    rw [bind_run ((remoteOp_run Event.flowCall env.flowResult s).trans (by rw [h]))]
    rfl)

theorem flowBlock_flow_err {env : CredEnv} {s : St} {e : PyExc}
    (h : env.flowResult = Except.error e) :
    flowBlock env none s =
      (Except.ok none, { s with trace := s.trace ++ [Event.flowCall] }) := by
  simp only [flowBlock]
  have hbody :
      (do let c ← remoteOp Event.flowCall env.flowResult
          pure (some c) : PyM (Option Creds)) s =
        (Except.error e, { s with trace := s.trace ++ [Event.flowCall] }) := by
    show PyM.bind (remoteOp Event.flowCall env.flowResult) _ s = _
    rw [PyM.bind, remoteOp_run, h]
  exact (pyTry_run_err hbody).trans rfl

/-! ## Anatomy lemmas: every path of each block, summarized -/

/-- `loadBlock` never raises, never changes state, and yields some optional
credentials. -/
theorem loadBlock_anatomy (env : CredEnv) (s : St) :
    ∃ creds0, loadBlock env s = (Except.ok creds0, s) := by
  cases hf : s.fileContent with
  | none => exact ⟨none, loadBlock_no_file hf⟩
  | some content =>
      cases hl : env.loadResult content with
      | ok c => exact ⟨some c, loadBlock_parse_ok hf hl⟩
      | error e => exact ⟨none, loadBlock_parse_err hf hl⟩

/-- `refreshBlock` never raises, only appends `refreshCall` events, and
passes `none` through unchanged. -/
theorem refreshBlock_anatomy (env : CredEnv) (creds0 : Option Creds) (s : St) :
    ∃ creds1 Δr, refreshBlock env creds0 s =
        (Except.ok creds1, { s with trace := s.trace ++ Δr }) ∧
      (∀ x ∈ Δr, x = Event.refreshCall) ∧
      (creds0 = none → creds1 = none ∧ Δr = []) := by
  cases creds0 with
  | none =>
      exact ⟨none, [], by rw [refreshBlock_none]; simp, by simp, fun _ => ⟨rfl, rfl⟩⟩
  | some c =>
      by_cases hexp : (c.expired && c.refreshTokenPresent) = true
      · cases hr : env.refreshResult c with
        | ok c2 =>
            exact ⟨some c2, [Event.refreshCall], refreshBlock_refresh_ok hexp hr,
              by simp, by simp⟩
        | error e =>
            exact ⟨none, [Event.refreshCall], refreshBlock_refresh_err hexp hr,
              by simp, by simp⟩
      · exact ⟨some c, [], by rw [refreshBlock_keep (by simpa using hexp)]; simp,
          by simp, by simp⟩

/-- `saveBlock` never raises; it either leaves the state unchanged (the write
raised) or writes exactly `creds.to_json()` and, when the `chmod` succeeds,
leaves the file with mode `0o600`. -/
theorem saveBlock_anatomy (env : CredEnv) (c : Creds) (s1 : St) :
    ∃ s3 Δs, saveBlock env c s1 = (Except.ok (), s3) ∧
      s3.trace = s1.trace ++ Δs ∧
      s3.service = s1.service ∧
      (∀ x ∈ Δs, x = Event.fileWrite c.jsonRepr ∨ x = Event.chmodCall 384) ∧
      ((Δs = [] ∧ s3 = s1) ∨
        (env.writeOk = true ∧ s3.fileContent = some c.jsonRepr ∧
          Event.fileWrite c.jsonRepr ∈ Δs ∧
          (env.chmodOk = true → s3.fileMode = some 384))) := by
  cases hw : env.writeOk with
  | false =>
      exact ⟨s1, [], saveBlock_write_fails hw, by simp, rfl, by simp,
        Or.inl ⟨rfl, rfl⟩⟩
  | true =>
      cases hc : env.chmodOk with
      | true =>
          refine ⟨_, [Event.fileWrite c.jsonRepr, Event.chmodCall 384],
            saveBlock_full hw hc, by simp, rfl, ?_, Or.inr ⟨rfl, rfl, by simp, fun _ => rfl⟩⟩
          intro x hx
          simp at hx
          rcases hx with h | h <;> simp [h]
      | false =>
          refine ⟨_, [Event.fileWrite c.jsonRepr],
            saveBlock_chmod_fails hw hc, by simp, rfl, ?_,
            Or.inr ⟨rfl, rfl, by simp, fun hcc => absurd hcc (by simp [hc])⟩⟩
          intro x hx
          simp at hx
          simp [hx]

theorem getCredentials_no_google {env : CredEnv} {s : St}
    (hg : env.googleTasksAvailable = false) :
    getCredentials env s = (Except.ok none, s) := by
  unfold getCredentials
  rw [if_pos (by simp [hg])]
  rfl

theorem getCredentials_no_creds_file {env : CredEnv} {s : St}
    (hg : env.googleTasksAvailable = true)
    (hcp : env.credentialsPathExists = false) :
    getCredentials env s = (Except.ok none, s) := by
  unfold getCredentials
  rw [if_neg (by simp [hg]), if_pos (by simp [hcp])]
  rfl

theorem getCredentials_main {env : CredEnv} {s : St} {creds0 : Option Creds}
    (hg : env.googleTasksAvailable = true)
    (hcp : env.credentialsPathExists = true)
    (hload : loadBlock env s = (Except.ok creds0, s)) :
    getCredentials env s =
      (if credsOk creds0 then pure creds0
       else do
         let creds1 ← refreshBlock env creds0
         let flowOut ← flowBlock env creds1
         match flowOut with
         | none => pure none
         | some c => do
             saveBlock env c
             pure (some c)) s := by
  unfold getCredentials
  rw [if_neg (by simp [hg]), if_neg (by simp [hcp])]
  exact bind_run hload

/-- Complete case analysis of one `get_credentials` run.  It never raises,
never touches the cached service, performs no Tasks-API data call, and either
leaves the token file alone or writes exactly the `to_json()` serialization
of the credentials it returns; when the `chmod` succeeds the written file
ends with mode `0o600`; when the OAuth flow was invoked and raised, the
result is `None` and the file was not touched. -/
theorem getCredentials_anatomy (env : CredEnv) (s : St) :
    ∃ r s2 Δ, getCredentials env s = (Except.ok r, s2) ∧
      s2.trace = s.trace ++ Δ ∧
      s2.service = s.service ∧
      (∀ x ∈ Δ, x = Event.refreshCall ∨ x = Event.flowCall ∨
        (∃ ct, x = Event.fileWrite ct) ∨ ∃ m, x = Event.chmodCall m) ∧
      (((∀ ct, Event.fileWrite ct ∉ Δ) ∧ s2.fileContent = s.fileContent ∧
          s2.fileMode = s.fileMode ∧
          (∀ e, env.flowResult = Except.error e → Event.flowCall ∈ Δ → r = none)) ∨
        (∃ c, r = some c ∧ env.writeOk = true ∧
          s2.fileContent = some c.jsonRepr ∧
          Event.fileWrite c.jsonRepr ∈ Δ ∧
          (∀ ct, Event.fileWrite ct ∈ Δ → ct = c.jsonRepr) ∧
          (env.chmodOk = true → s2.fileMode = some 384) ∧
          (∀ e, env.flowResult = Except.error e → Event.flowCall ∉ Δ))) := by
  cases hg : env.googleTasksAvailable with
  | false =>
      exact ⟨none, s, [], getCredentials_no_google hg, by simp, rfl, by simp,
        Or.inl ⟨by simp, rfl, rfl, by simp⟩⟩
  | true =>
    cases hcp : env.credentialsPathExists with
    | false =>
        exact ⟨none, s, [], getCredentials_no_creds_file hg hcp, by simp, rfl,
          by simp, Or.inl ⟨by simp, rfl, rfl, by simp⟩⟩
    | true =>
      obtain ⟨creds0, hload⟩ := loadBlock_anatomy env s
      by_cases hvalid : credsOk creds0 = true
      · refine ⟨creds0, s, [], ?_, by simp, rfl, by simp,
          Or.inl ⟨by simp, rfl, rfl, by simp⟩⟩
        rw [getCredentials_main hg hcp hload, if_pos hvalid]
        rfl
      · obtain ⟨creds1, Δr, hrefresh, hΔr, hnone⟩ :=
          refreshBlock_anatomy env creds0 s
        cases creds1 with
        | none =>
            cases hfr : env.flowResult with
            | ok cF =>
                obtain ⟨s3, Δs, hsave, hts, hsv, hallS, hdisj⟩ :=
                  saveBlock_anatomy env cF
                    { s with trace := (s.trace ++ Δr) ++ [Event.flowCall] }
                have hev : getCredentials env s = (Except.ok (some cF), s3) := by
                  rw [getCredentials_main hg hcp hload, if_neg hvalid]
                  simp only [bind_run hrefresh,
                    bind_run (flowBlock_flow_ok (s := { s with trace := s.trace ++ Δr }) hfr),
                    bind_run hsave, pure_run]
                refine ⟨some cF, s3, Δr ++ [Event.flowCall] ++ Δs, hev, ?_, ?_, ?_, ?_⟩
                · rw [hts]; simp
                · rw [hsv]
                · intro x hx
                  rcases List.mem_append.1 hx with hx1 | hx2
                  · rcases List.mem_append.1 hx1 with hx3 | hx4
                    · exact Or.inl (hΔr x hx3)
                    · simp at hx4; exact Or.inr (Or.inl hx4)
                  · rcases hallS x hx2 with h1 | h1
                    · exact Or.inr (Or.inr (Or.inl ⟨_, h1⟩))
                    · exact Or.inr (Or.inr (Or.inr ⟨_, h1⟩))
                · rcases hdisj with ⟨hΔsnil, hs3⟩ | ⟨hwk, hfc, hwm, hcm⟩
                  · subst hΔsnil
                    refine Or.inl ⟨?_, by rw [hs3], by rw [hs3], ?_⟩
                    · intro ct hct
                      rcases List.mem_append.1 hct with hx1 | hx2
                      · rcases List.mem_append.1 hx1 with hx3 | hx4
                        · have := hΔr _ hx3; simp_all
                        · simp_all
                      · simp_all
                    · intro e he; cases he
                  · refine Or.inr ⟨cF, rfl, hwk, hfc, ?_, ?_, hcm, ?_⟩
                    · exact List.mem_append.2 (Or.inr hwm)
                    · intro ct hct
                      rcases List.mem_append.1 hct with hx1 | hx2
                      · rcases List.mem_append.1 hx1 with hx3 | hx4
                        · have := hΔr _ hx3; simp_all
                        · simp_all
                      · rcases hallS _ hx2 with h1 | h1
                        · simp_all
                        · simp_all
                    · intro e he; cases he
            | error e0 =>
                have hev : getCredentials env s =
                    (Except.ok none,
                      { s with trace := (s.trace ++ Δr) ++ [Event.flowCall] }) := by
                  rw [getCredentials_main hg hcp hload, if_neg hvalid]
                  simp only [bind_run hrefresh,
                    bind_run (flowBlock_flow_err (s := { s with trace := s.trace ++ Δr }) hfr),
                    pure_run]
                refine ⟨none, _, Δr ++ [Event.flowCall], hev, by simp, rfl, ?_, ?_⟩
                · intro x hx
                  rcases List.mem_append.1 hx with hx1 | hx2
                  · exact Or.inl (hΔr x hx1)
                  · simp at hx2; exact Or.inr (Or.inl hx2)
                · refine Or.inl ⟨?_, rfl, rfl, fun _ _ _ => rfl⟩
                  intro ct hct
                  rcases List.mem_append.1 hct with hx1 | hx2
                  · have := hΔr _ hx1; simp_all
                  · simp_all
        | some c1 =>
            obtain ⟨s3, Δs, hsave, hts, hsv, hallS, hdisj⟩ :=
              saveBlock_anatomy env c1 { s with trace := s.trace ++ Δr }
            have hev : getCredentials env s = (Except.ok (some c1), s3) := by
              rw [getCredentials_main hg hcp hload, if_neg hvalid]
              simp only [bind_run hrefresh,
                bind_run (flowBlock_some env c1 { s with trace := s.trace ++ Δr }),
                bind_run hsave, pure_run]
            have hflowNotMem : Event.flowCall ∉ Δr ++ Δs := by
              intro hmem
              rcases List.mem_append.1 hmem with hx1 | hx2
              · have := hΔr _ hx1; simp_all
              · rcases hallS _ hx2 with h1 | h1 <;> simp_all
            refine ⟨some c1, s3, Δr ++ Δs, hev, ?_, by rw [hsv], ?_, ?_⟩
            · rw [hts]; simp
            · intro x hx
              rcases List.mem_append.1 hx with hx1 | hx2
              · exact Or.inl (hΔr x hx1)
              · rcases hallS x hx2 with h1 | h1
                · exact Or.inr (Or.inr (Or.inl ⟨_, h1⟩))
                · exact Or.inr (Or.inr (Or.inr ⟨_, h1⟩))
            · rcases hdisj with ⟨hΔsnil, hs3⟩ | ⟨hwk, hfc, hwm, hcm⟩
              · subst hΔsnil
                refine Or.inl ⟨?_, by rw [hs3], by rw [hs3],
                  fun e he hmem => absurd hmem (by simpa using hflowNotMem)⟩
                intro ct hct
                rcases List.mem_append.1 hct with hx1 | hx2
                · have := hΔr _ hx1; simp_all
                · simp_all
              · refine Or.inr ⟨c1, rfl, hwk, hfc, List.mem_append.2 (Or.inr hwm), ?_,
                  hcm, fun e he => hflowNotMem⟩
                intro ct hct
                rcases List.mem_append.1 hct with hx1 | hx2
                · have := hΔr _ hx1; simp_all
                · rcases hallS _ hx2 with h1 | h1 <;> simp_all

theorem noRaise_getCredentials (env : CredEnv) : NoRaise (getCredentials env) := by
  intro s
  obtain ⟨r, s2, _, hev, _⟩ := getCredentials_anatomy env s
  exact ⟨r, s2, hev⟩

/-- `get_tasks_service` never raises and performs no Tasks-API data call
(no task-list listing, no insertion). -/
theorem getTasksService_anatomy (env : TasksEnv) (s : St) :
    ∃ v s2 Δ, getTasksService env s = (Except.ok v, s2) ∧
      s2.trace = s.trace ++ Δ ∧
      Event.listCall ∉ Δ ∧ Event.insertCall ∉ Δ := by
  cases hg : env.credEnv.googleTasksAvailable with
  | false =>
      refine ⟨none, s, [], ?_, by simp, by simp, by simp⟩
      unfold getTasksService
      rw [if_pos (by simp [hg])]
      rfl
  | true =>
    obtain ⟨r, s2, Δ, hev, htr, hsv, hkinds, _⟩ := getCredentials_anatomy env.credEnv s
    have hlist : Event.listCall ∉ Δ := by
      intro hmem
      rcases hkinds _ hmem with h | h | ⟨ct, h⟩ | ⟨m, h⟩ <;> simp_all
    have hins : Event.insertCall ∉ Δ := by
      intro hmem
      rcases hkinds _ hmem with h | h | ⟨ct, h⟩ | ⟨m, h⟩ <;> simp_all
    have hentry : getTasksService env s =
        ((match s.service with
          | some sv => pure (some sv)
          | none => do
              let creds ← getCredentials env.credEnv
              match creds with
              | some _ =>
                  pyTry
                    (do
                      let sv ← remoteOp Event.buildCall env.buildResult
                      modifySt (fun st => { st with service := some sv })
                      pure (some sv))
                    (fun _ => pure none)
              | none => do
                  let s2 ← getSt
                  pure s2.service) : PyM (Option Service)) s := by
      unfold getTasksService
      rw [if_neg (by simp [hg])]
      exact bind_run (getSt_run s)
    cases hsvc : s.service with
    | some sv =>
        refine ⟨some sv, s, [], ?_, by simp, by simp, by simp⟩
        rw [hentry, hsvc]
        rfl
    | none =>
      cases r with
      | none =>
          refine ⟨s2.service, s2, Δ, ?_, htr, hlist, hins⟩
          rw [hentry, hsvc]
          show (getCredentials env.credEnv >>= _) s = _
          rw [bind_run hev]
          exact bind_run (getSt_run s2)
      | some c =>
        cases hb : env.buildResult with
        | ok sv =>
            refine ⟨some sv,
              { s2 with service := some sv,
                        trace := s2.trace ++ [Event.buildCall] },
              Δ ++ [Event.buildCall], ?_, by simp [htr], ?_, ?_⟩
            · rw [hentry, hsvc]
              show (getCredentials env.credEnv >>= _) s = _
              rw [bind_run hev]
              refine pyTry_run_ok ?_
              rw [bind_run ((remoteOp_run Event.buildCall env.buildResult s2).trans (by rw [hb]))]
              rfl
            · intro hmem
              rcases List.mem_append.1 hmem with h | h
              · exact hlist h
              · simp_all
            · intro hmem
              rcases List.mem_append.1 hmem with h | h
              · exact hins h
              · simp_all
        | error e =>
            refine ⟨none, { s2 with trace := s2.trace ++ [Event.buildCall] },
              Δ ++ [Event.buildCall], ?_, by simp [htr], ?_, ?_⟩
            · rw [hentry, hsvc]
              show (getCredentials env.credEnv >>= _) s = _
              rw [bind_run hev]
              have hbody :
                  (do
                    let sv ← remoteOp Event.buildCall env.buildResult
                    modifySt (fun st => { st with service := some sv })
                    pure (some sv) : PyM (Option Service)) s2 =
                  (Except.error e,
                    { s2 with trace := s2.trace ++ [Event.buildCall] }) := by
                show PyM.bind (remoteOp Event.buildCall env.buildResult) _ s2 = _
                rw [PyM.bind, remoteOp_run, hb]
              exact (pyTry_run_err hbody).trans rfl
            · intro hmem
              rcases List.mem_append.1 hmem with h | h
              · exact hlist h
              · simp_all
            · intro hmem
              rcases List.mem_append.1 hmem with h | h
              · exact hins h
              · simp_all

theorem noRaise_getTasksService (env : TasksEnv) : NoRaise (getTasksService env) := by
  intro s
  obtain ⟨v, s2, _, hev, _⟩ := getTasksService_anatomy env s
  exact ⟨v, s2, hev⟩

theorem noRaise_ite {α : Type} {c : Prop} [Decidable c] {m1 m2 : PyM α}
    (h1 : NoRaise m1) (h2 : NoRaise m2) : NoRaise (if c then m1 else m2) := by
  split
  · exact h1
  · exact h2

theorem noRaise_getDefaultTasklistId (env : TasksEnv) :
    NoRaise (getDefaultTasklistId env) := by
  unfold getDefaultTasklistId
  apply noRaise_bind (noRaise_getTasksService env)
  intro v
  cases v with
  | none => exact noRaise_pure _
  | some sv => exact noRaise_pyTry (fun _ => noRaise_pure _)

theorem noRaise_addTask (env : TasksEnv) (text : Option String) :
    NoRaise (addTaskToGoogleTasks env text) := by
  unfold addTaskToGoogleTasks
  apply noRaise_bind (noRaise_getTasksService env)
  intro v
  cases v with
  | none => exact noRaise_pure _
  | some sv =>
      exact noRaise_ite (noRaise_pure _)
        (noRaise_ite
          (noRaise_bind (noRaise_getDefaultTasklistId env)
            (fun tid => noRaise_ite (noRaise_pure _)
              (noRaise_pyTry (fun _ => noRaise_pure _))))
          (noRaise_bind (noRaise_pure _)
            (fun tid => noRaise_ite (noRaise_pure _)
              (noRaise_pyTry (fun _ => noRaise_pure _)))))

/-- When the sanitized text is empty, `add_task_to_google_tasks` returns a
failure pair and the run contains no task-list listing and no insertion
call. -/
theorem addTask_empty_sanitized (env : TasksEnv) (text : Option String)
    (s : St) (hsan : sanitizeInput text = "") :
    ∃ msg s2 Δ, addTaskToGoogleTasks env text s =
        (Except.ok (false, msg), s2) ∧
      s2.trace = s.trace ++ Δ ∧ Event.listCall ∉ Δ ∧ Event.insertCall ∉ Δ := by
  obtain ⟨v, s2, Δ, hts, htr, hlist, hins⟩ := getTasksService_anatomy env s
  cases v with
  | none =>
      refine ⟨"Google Tasks service not available", s2, Δ, ?_, htr, hlist, hins⟩
      unfold addTaskToGoogleTasks
      rw [bind_run hts]
      rfl
  | some sv =>
      refine ⟨"Invalid task text", s2, Δ, ?_, htr, hlist, hins⟩
      unfold addTaskToGoogleTasks
      rw [bind_run hts]
      simp only [hsan]
      rw [if_pos trivial]
      rfl

/-! ## Lemmas about `pyStrip` -/

theorem head?_dropWhile_false {α : Type} {p : α → Bool} {l : List α} {c : α}
    (h : (l.dropWhile p).head? = some c) : p c = false := by
  have hd := List.head?_dropWhile_not p l
  rw [h] at hd
  exact hd

theorem pyStrip_decomposition (s : String) :
    ∃ pre post,
      s.data = pre ++ (pyStrip s).data ++ post ∧
      pre.all pyIsSpace = true ∧ post.all pyIsSpace = true := by
  refine ⟨s.data.takeWhile pyIsSpace,
    ((s.data.dropWhile pyIsSpace).reverse.takeWhile pyIsSpace).reverse, ?_, ?_, ?_⟩
  · have h1 := List.takeWhile_append_dropWhile (p := pyIsSpace) (l := s.data)
    have h2 := List.takeWhile_append_dropWhile (p := pyIsSpace)
      (l := (s.data.dropWhile pyIsSpace).reverse)
    have h3 : s.data.dropWhile pyIsSpace =
        (pyStrip s).data ++
          ((s.data.dropWhile pyIsSpace).reverse.takeWhile pyIsSpace).reverse := by
      have h4 : (s.data.dropWhile pyIsSpace).reverse.reverse =
          s.data.dropWhile pyIsSpace := List.reverse_reverse _
      calc s.data.dropWhile pyIsSpace
          = (s.data.dropWhile pyIsSpace).reverse.reverse := h4.symm
        _ = ((s.data.dropWhile pyIsSpace).reverse.takeWhile pyIsSpace ++
              (s.data.dropWhile pyIsSpace).reverse.dropWhile pyIsSpace).reverse := by
              rw [h2]
        _ = (pyStrip s).data ++
              ((s.data.dropWhile pyIsSpace).reverse.takeWhile pyIsSpace).reverse := by
              rw [List.reverse_append]
              rfl
    conv_lhs => rw [← h1, h3]
    exact (List.append_assoc _ _ _).symm
  · exact List.all_eq_true.2 (fun x hx => List.mem_takeWhile_imp hx)
  · refine List.all_eq_true.2 (fun x hx => ?_)
    exact List.mem_takeWhile_imp (List.mem_reverse.1 hx)

theorem pyStrip_head_not_space {s : String} {c : Char}
    (h : (pyStrip s).data.head? = some c) : pyIsSpace c = false := by
  have hrev : ((s.data.dropWhile pyIsSpace).reverse.dropWhile pyIsSpace).reverse.head? =
      some c := h
  rw [List.head?_reverse] at hrev
  have hne : (s.data.dropWhile pyIsSpace).reverse.dropWhile pyIsSpace ≠ [] := by
    intro hnil
    rw [hnil] at hrev
    cases hrev
  have hlast : (s.data.dropWhile pyIsSpace).reverse.getLast? = some c := by
    conv_lhs =>
      rw [← List.takeWhile_append_dropWhile (p := pyIsSpace)
        (l := (s.data.dropWhile pyIsSpace).reverse)]
    rw [List.getLast?_append_of_ne_nil _ hne]
    exact hrev
  rw [List.getLast?_reverse] at hlast
  exact head?_dropWhile_false hlast

theorem pyStrip_getLast_not_space {s : String} {c : Char}
    (h : (pyStrip s).data.getLast? = some c) : pyIsSpace c = false := by
  have hrev : ((s.data.dropWhile pyIsSpace).reverse.dropWhile pyIsSpace).reverse.getLast? =
      some c := h
  rw [List.getLast?_reverse] at hrev
  exact head?_dropWhile_false hrev

theorem pyStrip_all_space {s : String} (h : s.data.all pyIsSpace = true) :
    (pyStrip s).data = [] := by
  have h1 : s.data.dropWhile pyIsSpace = [] :=
    List.dropWhile_eq_nil_iff.2 (fun x hx => List.all_eq_true.1 h x hx)
  show ((s.data.dropWhile pyIsSpace).reverse.dropWhile pyIsSpace).reverse = []
  rw [h1]
  rfl

/-! ## Claim theorems -/

/-- C2: for every input string, `_sanitize_input` trims leading and trailing
whitespace and truncates the result to the call-site bound of 1000
characters; a whitespace-only input sanitizes to the empty string.  The
trimming is exact: the input splits as whitespace ++ stripped ++ whitespace,
and the stripped part neither starts nor ends with a whitespace character. -/
theorem sanitize_trims_and_truncates (s : String) :
    sanitizeInput (some s) = String.mk ((pyStrip s).data.take 1000) ∧
    (sanitizeInput (some s)).length ≤ 1000 ∧
    (∃ pre post,
      s.data = pre ++ (pyStrip s).data ++ post ∧
      pre.all pyIsSpace = true ∧ post.all pyIsSpace = true) ∧
    (∀ c, (pyStrip s).data.head? = some c → pyIsSpace c = false) ∧
    (∀ c, (pyStrip s).data.getLast? = some c → pyIsSpace c = false) ∧
    (s.data.all pyIsSpace = true → sanitizeInput (some s) = "") := by
  have heq : sanitizeInput (some s) = String.mk ((pyStrip s).data.take 1000) := by
    by_cases hs : s = ""
    · subst hs; rfl
    · simp [sanitizeInput, hs, pySlice]
  refine ⟨heq, ?_, pyStrip_decomposition s,
    fun c hc => pyStrip_head_not_space hc,
    fun c hc => pyStrip_getLast_not_space hc, ?_⟩
  · rw [heq]
    show ((pyStrip s).data.take 1000).length ≤ 1000
    rw [List.length_take]
    exact min_le_left _ _
  · intro hall
    rw [heq, pyStrip_all_space hall]
    rfl

theorem sanitize_trims_and_truncates_witness :
    sanitizeInput (some "  hello  ") = "hello" ∧
    (sanitizeInput (some "   ") = String.mk ((pyStrip "   ").data.take 1000) ∧
     (sanitizeInput (some "   ")).length ≤ 1000 ∧
     (∃ pre post,
       ("   ").data = pre ++ (pyStrip "   ").data ++ post ∧
       pre.all pyIsSpace = true ∧ post.all pyIsSpace = true) ∧
     (∀ c, (pyStrip "   ").data.head? = some c → pyIsSpace c = false) ∧
     (∀ c, (pyStrip "   ").data.getLast? = some c → pyIsSpace c = false) ∧
     (("   ").data.all pyIsSpace = true → sanitizeInput (some "   ") = "")) :=
  ⟨by decide, sanitize_trims_and_truncates "   "⟩

/-- C10: `_sanitize_input` maps both falsy inputs — Python `None` and the
empty string — to the empty string; being a total function of the model, it
raises nothing, so the sanitizer is total over optional text. -/
theorem sanitize_falsy_returns_empty :
    sanitizeInput none = "" ∧ sanitizeInput (some "") = "" := ⟨rfl, rfl⟩

/-- C6: when a stored token exists and parses to valid credentials,
`get_credentials` returns those credentials with the state — including the
event trace — unchanged: the OAuth fresh-login flow (and every other
collaborator call) is not invoked in that run. -/
theorem valid_stored_token_resumes_without_flow (env : CredEnv) (s : St)
    (content : String) (c : Creds)
    (hg : env.googleTasksAvailable = true)
    (hcp : env.credentialsPathExists = true)
    (hfile : s.fileContent = some content)
    (hparse : env.loadResult content = Except.ok c)
    (hvalid : c.valid = true) :
    getCredentials env s = (Except.ok (some c), s) := by
  rw [getCredentials_main hg hcp (loadBlock_parse_ok hfile hparse),
    if_pos (show credsOk (some c) = true by simp [credsOk, hvalid])]
  rfl

theorem valid_stored_token_resumes_without_flow_witness :
    getCredentials envLoadOk stTok = (Except.ok (some credsStored), stTok) :=
  valid_stored_token_resumes_without_flow envLoadOk stTok
    "stored-token-json" credsStored rfl rfl rfl rfl rfl

/-- C4: if the token file is missing, or its content makes the credential
parser raise, the load step yields `None` without raising, and
`get_credentials` degrades to a fresh-login attempt: the OAuth flow call is
in the final trace and the whole run still returns without exception. -/
theorem load_missing_or_corrupt_degrades_to_login (env : CredEnv) (s : St)
    (hg : env.googleTasksAvailable = true)
    (hcp : env.credentialsPathExists = true)
    (habsent : s.fileContent = none ∨
      ∃ content e, s.fileContent = some content ∧
        env.loadResult content = Except.error e) :
    loadBlock env s = (Except.ok none, s) ∧
    ∃ r s2, getCredentials env s = (Except.ok r, s2) ∧
      Event.flowCall ∈ s2.trace := by
  have hload : loadBlock env s = (Except.ok none, s) := by
    rcases habsent with h | ⟨content, e, h1, h2⟩
    · exact loadBlock_no_file h
    · exact loadBlock_parse_err h1 h2
  refine ⟨hload, ?_⟩
  cases hfr : env.flowResult with
  | ok cF =>
      obtain ⟨s3, Δs, hsave, hts, _, _, _⟩ :=
        saveBlock_anatomy env cF { s with trace := s.trace ++ [Event.flowCall] }
      refine ⟨some cF, s3, ?_, ?_⟩
      · rw [getCredentials_main hg hcp hload, if_neg (by simp [credsOk])]
        simp only [bind_run (refreshBlock_none env s),
          bind_run (flowBlock_flow_ok hfr), bind_run hsave, pure_run]
      · rw [hts]; simp
  | error e0 =>
      refine ⟨none, { s with trace := s.trace ++ [Event.flowCall] }, ?_, by simp⟩
      rw [getCredentials_main hg hcp hload, if_neg (by simp [credsOk])]
      simp only [bind_run (refreshBlock_none env s),
        bind_run (flowBlock_flow_err hfr), pure_run]

theorem load_missing_or_corrupt_degrades_to_login_witness :
    loadBlock envFlowOk stEmpty = (Except.ok none, stEmpty) ∧
    ∃ r s2, getCredentials envFlowOk stEmpty = (Except.ok r, s2) ∧
      Event.flowCall ∈ s2.trace :=
  load_missing_or_corrupt_degrades_to_login envFlowOk stEmpty rfl rfl (Or.inl rfl)

/-- C5: if the fresh-login flow raises, the authentication run yields `None`
and the token file is untouched: starting from an empty trace, in any run in
which the flow call actually happened the result is `None`, file content and
mode are unchanged, and no write event occurred. -/
theorem flow_failure_returns_none_and_writes_nothing (env : CredEnv) (s : St)
    (e : PyExc) (hflow : env.flowResult = Except.error e)
    (htr0 : s.trace = []) :
    ∃ r s2, getCredentials env s = (Except.ok r, s2) ∧
      (Event.flowCall ∈ s2.trace →
        r = none ∧ s2.fileContent = s.fileContent ∧
        s2.fileMode = s.fileMode ∧
        ∀ ct, Event.fileWrite ct ∉ s2.trace) := by
  obtain ⟨r, s2, Δ, hev, htr, hsv, hkinds, hdisj⟩ := getCredentials_anatomy env s
  refine ⟨r, s2, hev, fun hmem => ?_⟩
  have hmemΔ : Event.flowCall ∈ Δ := by
    rw [htr, htr0] at hmem
    simpa using hmem
  rcases hdisj with ⟨hnw, hfc, hfm, himp⟩ | ⟨c, hrc, hw, hfc, hwm, hall, hcm, hnofc⟩
  · refine ⟨himp e hflow hmemΔ, hfc, hfm, fun ct hct => ?_⟩
    rw [htr, htr0] at hct
    exact hnw ct (by simpa using hct)
  · exact absurd hmemΔ (hnofc e hflow)

theorem flow_failure_returns_none_and_writes_nothing_witness :
    ∃ r s2, getCredentials envFlowErr stEmpty = (Except.ok r, s2) ∧
      (Event.flowCall ∈ s2.trace →
        r = none ∧ s2.fileContent = stEmpty.fileContent ∧
        s2.fileMode = stEmpty.fileMode ∧
        ∀ ct, Event.fileWrite ct ∉ s2.trace) :=
  flow_failure_returns_none_and_writes_nothing envFlowErr stEmpty
    (PyExc.err "login rejected") rfl rfl

/-- C8: whenever the token-file write succeeds in a run (a `fileWrite` event
is in the trace) and the operating system lets the `chmod` the code issues
immediately afterwards succeed, the run ends with the token file having the
owner-read/write-only mode `0o600` (= 384). -/
theorem successful_write_sets_mode_600 (env : CredEnv) (s : St)
    (hchmod : env.chmodOk = true) (htr0 : s.trace = []) :
    ∃ r s2, getCredentials env s = (Except.ok r, s2) ∧
      ((∃ ct, Event.fileWrite ct ∈ s2.trace) → s2.fileMode = some 384) := by
  obtain ⟨r, s2, Δ, hev, htr, hsv, hkinds, hdisj⟩ := getCredentials_anatomy env s
  refine ⟨r, s2, hev, ?_⟩
  rintro ⟨ct, hct⟩
  have hctΔ : Event.fileWrite ct ∈ Δ := by
    rw [htr, htr0] at hct
    simpa using hct
  rcases hdisj with ⟨hnw, _, _, _⟩ | ⟨c, _, _, _, _, _, hcm, _⟩
  · exact absurd hctΔ (hnw ct)
  · exact hcm hchmod

theorem successful_write_sets_mode_600_witness :
    ∃ r s2, getCredentials envFlowOk stEmpty = (Except.ok r, s2) ∧
      ((∃ ct, Event.fileWrite ct ∈ s2.trace) → s2.fileMode = some 384) :=
  successful_write_sets_mode_600 envFlowOk stEmpty rfl rfl

/-- C9: a failure while persisting the freshly obtained token is non-fatal:
with no stored token and a successful OAuth flow, `get_credentials` returns
the new credentials whatever the write/chmod outcomes are, and when the
write raises, nothing was stored (file content and mode unchanged). -/
theorem persist_failure_still_returns_creds (env : CredEnv) (s : St)
    (c : Creds) (hg : env.googleTasksAvailable = true)
    (hcp : env.credentialsPathExists = true)
    (hfile : s.fileContent = none)
    (hflow : env.flowResult = Except.ok c) :
    ∃ s2, getCredentials env s = (Except.ok (some c), s2) ∧
      (env.writeOk = false →
        s2.fileContent = s.fileContent ∧ s2.fileMode = s.fileMode) := by
  have hload : loadBlock env s = (Except.ok none, s) := loadBlock_no_file hfile
  obtain ⟨s3, Δs, hsave, hts, hsv, hallS, hdisj⟩ :=
    saveBlock_anatomy env c { s with trace := s.trace ++ [Event.flowCall] }
  refine ⟨s3, ?_, fun hw => ?_⟩
  · rw [getCredentials_main hg hcp hload, if_neg (by simp [credsOk])]
    simp only [bind_run (refreshBlock_none env s),
      bind_run (flowBlock_flow_ok hflow), bind_run hsave, pure_run]
  · rcases hdisj with ⟨_, hs3⟩ | ⟨hwk, _, _, _⟩
    · rw [hs3]
      exact ⟨rfl, rfl⟩
    · exact absurd hwk (by simp [hw])

theorem persist_failure_still_returns_creds_witness :
    ∃ s2, getCredentials envWriteFail stEmpty =
        (Except.ok (some credsFresh), s2) ∧
      (envWriteFail.writeOk = false →
        s2.fileContent = stEmpty.fileContent ∧
        s2.fileMode = stEmpty.fileMode) :=
  persist_failure_still_returns_creds envWriteFail stEmpty credsFresh
    rfl rfl rfl rfl

/-- C1 (amended): the token file is written in plaintext — in any run of
`get_credentials` starting from an empty trace, every content written to the
token file is exactly the `to_json()` serialization of the credentials the
run returns, and the file then holds that serialization; no encryption is
applied anywhere. -/
theorem written_content_is_plain_to_json (env : CredEnv) (s : St)
    (htr0 : s.trace = []) :
    ∃ r s2, getCredentials env s = (Except.ok r, s2) ∧
      ∀ ct, Event.fileWrite ct ∈ s2.trace →
        ∃ c, r = some c ∧ ct = c.jsonRepr ∧
          s2.fileContent = some c.jsonRepr := by
  obtain ⟨r, s2, Δ, hev, htr, hsv, hkinds, hdisj⟩ := getCredentials_anatomy env s
  refine ⟨r, s2, hev, fun ct hct => ?_⟩
  have hctΔ : Event.fileWrite ct ∈ Δ := by
    rw [htr, htr0] at hct
    simpa using hct
  rcases hdisj with ⟨hnw, _, _, _⟩ | ⟨c, hrc, _, hfc, _, hall, _, _⟩
  · exact absurd hctΔ (hnw ct)
  · exact ⟨c, hrc, hall ct hctΔ, hfc⟩

theorem written_content_is_plain_to_json_witness :
    ∃ r s2, getCredentials envFlowOk stEmpty = (Except.ok r, s2) ∧
      ∀ ct, Event.fileWrite ct ∈ s2.trace →
        ∃ c, r = some c ∧ ct = c.jsonRepr ∧
          s2.fileContent = some c.jsonRepr :=
  written_content_is_plain_to_json envFlowOk stEmpty rfl

/-- C1 counterexample: in the concrete successful fresh-login run, the token
file ends up holding exactly `credsFresh.jsonRepr` — the plaintext
`to_json()` serialization of the persisted record, not a ciphertext — so
the claim that the stored bytes are never the plaintext serialization is
false on this code. -/
theorem store_writes_plaintext_counterexample :
    (getCredentials envFlowOk stEmpty).1 = Except.ok (some credsFresh) ∧
    (getCredentials envFlowOk stEmpty).2.fileContent =
      some credsFresh.jsonRepr := ⟨rfl, rfl⟩

/-- C3: for every input and every behaviour of the remote-service and
credential collaborators — including any of them raising —
`add_task_to_google_tasks` returns a `(success, message)` pair and no
exception escapes it. -/
theorem addTask_returns_pair_never_raises (env : TasksEnv)
    (taskText : Option String) (s : St) :
    ∃ success msg s2, addTaskToGoogleTasks env taskText s =
      (Except.ok (success, msg), s2) := by
  obtain ⟨⟨b, m⟩, s2, h⟩ := noRaise_addTask env taskText s
  exact ⟨b, m, s2, h⟩

/-- C7 (amended): for every input whose sanitized form is the empty string,
`add_task_to_google_tasks` returns a failure pair and performs no Tasks-API
data call — no task-list listing and no task insertion; remote
credential-acquisition calls (token refresh, OAuth login flow, service
build) may still occur before the rejection, because the service is obtained
before the input is validated. -/
theorem empty_input_rejected_no_data_calls (env : TasksEnv)
    (text : Option String) (s : St) (hsan : sanitizeInput text = "")
    (htr0 : s.trace = []) :
    ∃ msg s2, addTaskToGoogleTasks env text s =
        (Except.ok (false, msg), s2) ∧
      Event.listCall ∉ s2.trace ∧ Event.insertCall ∉ s2.trace := by
  obtain ⟨msg, s2, Δ, hev, htr, hlist, hins⟩ :=
    addTask_empty_sanitized env text s hsan
  refine ⟨msg, s2, hev, ?_, ?_⟩
  · rw [htr, htr0]
    simpa using hlist
  · rw [htr, htr0]
    simpa using hins

theorem empty_input_rejected_no_data_calls_witness :
    ∃ msg s2, addTaskToGoogleTasks tasksEnvOk (some "   ") stEmpty =
        (Except.ok (false, msg), s2) ∧
      Event.listCall ∉ s2.trace ∧ Event.insertCall ∉ s2.trace :=
  empty_input_rejected_no_data_calls tasksEnvOk (some "   ") stEmpty
    (by decide) rfl

/-- C7 counterexample: with no cached service and no stored token, calling
`add_task_to_google_tasks` on the whitespace-only input `"   "` does reject
it with `(False, "Invalid task text")` — but only after the remote OAuth
login (`flowCall`) already happened, so the rejection does not precede every
remote call. -/
theorem empty_input_after_remote_call_counterexample :
    (addTaskToGoogleTasks tasksEnvOk (some "   ") stEmpty).1 =
      Except.ok (false, "Invalid task text") ∧
    Event.flowCall ∈
      (addTaskToGoogleTasks tasksEnvOk (some "   ") stEmpty).2.trace := by
  exact ⟨rfl, by decide⟩
